/-
Verification of passgen (src/passgen.c): a command-line password generator.

The development shallowly embeds the C program:
  * machine integers (`size_t`) become `Nat` with explicit reductions
    modulo `2^64` where the machine width matters;
  * the OS entropy source (`getrandom`) becomes an explicit list of draw
    outcomes consumed by the functions that read it;
  * fallible computations return `Option` (with `none` meaning the modelled
    draw list ran out), and the C undefined behaviour of dividing by zero is
    made explicit by a dedicated result constructor.
-/
import Mathlib

/-- `MAX` embeds `static size_t const MAX = ~0;` of `randInt`
(src/passgen.c line 243): the absolute maximum of `size_t` on the
64-bit platform the program targets, `2^64 - 1`. -/
def MAX : Nat := 2 ^ 64 - 1

/-- One outcome of a single `getrandom(&buf, sizeof buf, 0)` call
(src/passgen.c line 249):
  * `ok v` — the call returned `sizeof buf` (8) bytes; the bytes written
    encode the `size_t` value `v % 2^64` and `errno` is left unchanged;
  * `short` — the call returned a count different from `sizeof buf`
    without touching `errno` (a partial read);
  * `err e` — the call failed, returning `-1` with `errno` set to `e`
    (always nonzero for a real C library error). -/
inductive Draw where
  | ok (v : Nat)
  | short
  | err (e : Nat)
deriving DecidableEq, Repr

/-- Result of one `randInt` call in the embedding:
  * `divByZero` — control reached the expression `MAX / limit` with
    `limit = 0` (undefined behaviour in the C program);
  * `out r e` — the function returned the value `r` with `errno = e`. -/
inductive RandOut where
  | divByZero
  | out (r : Nat) (e : Nat)
deriving DecidableEq, Repr

/-- The inner retry loop of `randInt` (src/passgen.c lines 248–249):
`for (errno = 0; getrandom(&buf, sizeof (buf), 0) != sizeof (buf) && !errno; );`
Starting from `errno = 0`, the loop re-calls `getrandom` while the call
returned a short count and `errno` is still clear; it exits with a filled
`buf` on a full read, or with `errno` set on a failing call.
Returns the loop's outcome (`Except.error e` = exited with `errno = e ≠ 0`,
`Except.ok buf` = exited with a full 8-byte value) together with the
unconsumed rest of the modelled draw list; `none` = the modelled list ran
out while the loop was still running. -/
def fillBuf : List Draw → Option (Except Nat Nat × List Draw)
  | [] => none
  | Draw.ok v :: rest => some (Except.ok (v % (MAX + 1)), rest)
  | Draw.short :: rest => fillBuf rest
  | Draw.err e :: rest =>
      if e = 0 then fillBuf rest else some (Except.error e, rest)

/-- `size_t randInt(size_t const limit)` (src/passgen.c lines 241–262),
flattened over the modelled draw list.  The two C loops — the `getrandom`
retry `for` loop and the `goto restart` rejection loop — become one
structural recursion on the list of draws:
  * a `short` draw (and a hypothetical failing call that leaves `errno`
    clear) is retried by the inner `for` loop;
  * a draw failing with `errno = e ≠ 0` exits the loop, and line 250
    (`if (errno) return 0;`) returns `0` with `errno` still `e`;
  * a full draw `buf` reaches line 258: `if (buf > MAX / limit * limit)
    goto restart;` — with `limit = 0` the division is undefined behaviour
    (`divByZero`); a rejected `buf` restarts; an accepted one returns
    `buf % limit` (line 261) with `errno = 0`.
The second component is the rest of the modelled draw list.
`randInt_eq_fillBuf` below re-establishes the two-level loop structure. -/
def randInt (limit : Nat) : List Draw → Option (RandOut × List Draw)
  | [] => none
  | Draw.ok v :: rest =>
      if limit = 0 then some (RandOut.divByZero, rest)
      else if v % (MAX + 1) > MAX / limit * limit then randInt limit rest
      else some (RandOut.out (v % (MAX + 1) % limit) 0, rest)
  | Draw.short :: rest => randInt limit rest
  | Draw.err e :: rest =>
      if e = 0 then randInt limit rest else some (RandOut.out 0 e, rest)

/-- The acceptance predicate of `randInt`'s rejection test: a drawn word
`buf` is kept (not sent back to `restart`) exactly when the guard of
src/passgen.c line 258, `buf > MAX / limit * limit`, is false. -/
def accepted (limit buf : Nat) : Prop := buf ≤ MAX / limit * limit

instance (limit buf : Nat) : Decidable (accepted limit buf) := by
  unfold accepted
  infer_instance

/-- Number of word values `buf` in `[0, MAX]` that `randInt` accepts and
that map to the residue `k` under `buf % limit` (the value line 261 then
returns).  Over a uniformly drawn word this is proportional to the
probability of the output `k`. -/
def residCount (limit k : Nat) : Nat :=
  ((Finset.range (MAX + 1)).filter
    (fun buf => accepted limit buf ∧ buf % limit = k)).card

/-- Spec §4.2 step 2: `threshold = floor(WORD_MAX / limit) * limit`, the
largest multiple of `limit` not exceeding `WORD_MAX` (Nat division is
floor division). Written from the spec's words, for the refinement claim. -/
def specThreshold (limit : Nat) : Nat := MAX / limit * limit

/-- Spec §4.2 steps 3–5, written from the spec's words for the refinement
claim: draw a full-word value `buf`; if `buf > threshold` discard and
redraw; otherwise return `buf mod limit`.  The successive full-word draws
are modelled as a list; `none` means the modelled list ran out while the
algorithm was still redrawing. -/
def specRandInt (limit : Nat) : List Nat → Option Nat
  | [] => none
  | buf :: rest =>
      if buf > specThreshold limit then specRandInt limit rest
      else some (buf % limit)

/-- The command line options of src/passgen.c lines 56–67 (`Option` in C;
renamed to avoid the Lean `Option`). -/
inductive CliOption where
  | lowerEnable
  | lowerDisable
  | upperEnable
  | upperDisable
  | numberEnable
  | numberDisable
  | symbolEnable
  | symbolDisable
  | help
  | unrecognized
deriving DecidableEq, Repr

/-- `Option parseLongOption(char const *arg)` (src/passgen.c lines 105–126):
a chain of `strcmp`s against the long option spellings. -/
def parseLongOption (arg : List Char) : CliOption :=
  if arg = "--help".toList then CliOption.help
  else if arg = "--enable-lower".toList then CliOption.lowerEnable
  else if arg = "--enable-upper".toList then CliOption.upperEnable
  else if arg = "--enable-number".toList then CliOption.numberEnable
  else if arg = "--enable-symbol".toList then CliOption.symbolEnable
  else if arg = "--disable-lower".toList then CliOption.lowerDisable
  else if arg = "--disable-upper".toList then CliOption.upperDisable
  else if arg = "--disable-number".toList then CliOption.numberDisable
  else if arg = "--disable-symbol".toList then CliOption.symbolDisable
  else CliOption.unrecognized

/-- `Option parseOption(char const *arg)` (src/passgen.c lines 74–103):
a `+x`/`-x` short option must be exactly two characters (`!arg[2]`);
`--…` defers to `parseLongOption`; everything else is unrecognized. -/
def parseOption (arg : List Char) : CliOption :=
  match arg with
  | '+' :: 'l' :: [] => CliOption.lowerEnable
  | '+' :: 'u' :: [] => CliOption.upperEnable
  | '+' :: 'n' :: [] => CliOption.numberEnable
  | '+' :: 's' :: [] => CliOption.symbolEnable
  | '-' :: '-' :: rest => parseLongOption ('-' :: '-' :: rest)
  | '-' :: 'l' :: [] => CliOption.lowerDisable
  | '-' :: 'u' :: [] => CliOption.upperDisable
  | '-' :: 'n' :: [] => CliOption.numberDisable
  | '-' :: 's' :: [] => CliOption.symbolDisable
  | _ => CliOption.unrecognized

/-- The four character-class switches of `main`
(src/passgen.c lines 147–153). -/
structure Flags where
  lower : Bool
  upper : Bool
  number : Bool
  symbol : Bool
deriving DecidableEq, Repr

/-- Defaults of src/passgen.c lines 152–153: lower, upper, number on;
symbol off. -/
def defaultFlags : Flags := ⟨true, true, true, false⟩

/-- `size_t const PASS_LEN_DEFAULT = 22;` (src/passgen.c line 141). -/
def PASS_LEN_DEFAULT : Nat := 22

/-- The `errno` value `ERANGE` used by `strtol` on overflow (34 on the
glibc/Linux platform the program targets). -/
def ERANGE : Nat := 34

/-- `LONG_MAX` for the targeted LP64 platform. -/
def LONG_MAX : Int := 2 ^ 63 - 1

/-- `LONG_MIN` for the targeted LP64 platform. -/
def LONG_MIN : Int := -(2 ^ 63)

/-- C locale `isspace`: space, horizontal tab, newline, vertical tab
(code 11), form feed (code 12), carriage return. -/
def isSpaceC (c : Char) : Bool :=
  c = ' ' || c = '\t' || c = '\n' || c = Char.ofNat 11 ||
    c = Char.ofNat 12 || c = '\r'

/-- Decimal digit test for `strtol` in base 10. -/
def isDigitC (c : Char) : Bool := '0' ≤ c && c ≤ '9'

/-- Numeric value of a decimal digit character (ASCII code minus 48). -/
def digitVal (c : Char) : Nat := c.toNat - 48

/-- Modelled C library call `strtol(option, NULL, 10)` as used on
src/passgen.c line 180 (glibc semantics): skip leading whitespace, read an
optional sign and a run of decimal digits.  If no digits are present the
result is `0` and `errno` is left unchanged (the caller has just cleared
it, so the second component `0` models "unchanged").  If the value
overflows `long`, the result is clamped to `LONG_MAX`/`LONG_MIN` and
`errno` is set to `ERANGE`. -/
def strtol (s : List Char) : Int × Nat :=
  let s1 := s.dropWhile isSpaceC
  let signAndRest : Int × List Char :=
    match s1 with
    | '-' :: r => (-1, r)
    | '+' :: r => (1, r)
    | _ => (1, s1)
  let digits := signAndRest.2.takeWhile isDigitC
  if digits.isEmpty then (0, 0)
  else
    let n : Nat := digits.foldl (fun acc c => acc * 10 + digitVal c) 0
    let v : Int := signAndRest.1 * n
    if v < LONG_MIN then (LONG_MIN, ERANGE)
    else if LONG_MAX < v then (LONG_MAX, ERANGE)
    else (v, 0)

/-- The C conversion of a `long` to `size_t` performed by the assignment
`passLen = strtol(option, NULL, 10);` (line 180): reduction modulo
`2^64`. -/
def toSizeT (v : Int) : Nat := (v % ((2 : Int) ^ 64)).toNat

/-- Outcome of `main`'s argument loop (src/passgen.c lines 156–192):
either `--help` was hit (`goto exit`, skipping generation; `reports` are
the tokens already written to standard error as unrecognized), or the loop
finished with the final flag settings, password length, and the list of
tokens reported as unrecognized. -/
inductive ArgsResult where
  | helpExit (reports : List (List Char))
  | proceed (flags : Flags) (passLen : Nat) (reports : List (List Char))
deriving DecidableEq, Repr

/-- The argument loop of `main` (src/passgen.c lines 156–192).  State:
current flags, current `passLen`, tokens reported so far; the remaining
argument list is consumed left to right, `rest.isEmpty` modelling the
`i == argc-1` test.  An unrecognized final argument is fed to `strtol`:
when `errno` stays clear its (converted) value becomes `passLen` with no
report; when `errno` is set, `passLen` is reset to the default and the
token is reported (`goto badOpt`).  An unrecognized non-final token is
reported and otherwise ignored. -/
def argsLoop (f : Flags) (passLen : Nat) (reports : List (List Char)) :
    List (List Char) → ArgsResult
  | [] => ArgsResult.proceed f passLen reports
  | arg :: rest =>
      match parseOption arg with
      | CliOption.lowerEnable => argsLoop { f with lower := true } passLen reports rest
      | CliOption.lowerDisable => argsLoop { f with lower := false } passLen reports rest
      | CliOption.upperEnable => argsLoop { f with upper := true } passLen reports rest
      | CliOption.upperDisable => argsLoop { f with upper := false } passLen reports rest
      | CliOption.numberEnable => argsLoop { f with number := true } passLen reports rest
      | CliOption.numberDisable => argsLoop { f with number := false } passLen reports rest
      | CliOption.symbolEnable => argsLoop { f with symbol := true } passLen reports rest
      | CliOption.symbolDisable => argsLoop { f with symbol := false } passLen reports rest
      | CliOption.help => ArgsResult.helpExit reports
      | CliOption.unrecognized =>
          if rest.isEmpty then
            let ve := strtol arg
            if ve.2 ≠ 0 then argsLoop f PASS_LEN_DEFAULT (reports ++ [arg]) rest
            else argsLoop f (toSizeT ve.1) reports rest
          else argsLoop f passLen (reports ++ [arg]) rest

/-- `main`'s whole argument handling, started from the defaults
(src/passgen.c lines 141–192). -/
def processArgs (args : List (List Char)) : ArgsResult :=
  argsLoop defaultFlags PASS_LEN_DEFAULT [] args

/-- `char const LOWERS[] = "abcdefghijklmnopqrstuvwxyz";`
(src/passgen.c line 132). -/
def LOWERS : List Char := "abcdefghijklmnopqrstuvwxyz".toList

/-- `char const UPPERS[] = "ABCDEFGHIJKLMNOPQRSTUVWXYZ";`
(src/passgen.c line 134). -/
def UPPERS : List Char := "ABCDEFGHIJKLMNOPQRSTUVWXYZ".toList

/-- `char const NUMBERS[] = "0123456789";` (src/passgen.c line 136). -/
def NUMBERS : List Char := "0123456789".toList

/-- `char const SYMBOLS[]` of src/passgen.c line 138, the 32 ASCII
punctuation characters.  The ones awkward as Lean character literals are
written by ASCII code: 34 = double quote, 39 = apostrophe, 92 = backslash,
96 = grave accent, 123 and 125 = the curly braces. -/
def SYMBOLS : List Char :=
  ['!', Char.ofNat 34, '#', '$', '%', '&', Char.ofNat 39, '(', ')', '*',
   '+', ',', '-', '.', '/', ':', ';', '<', '=', '>', '?', '@', '[',
   Char.ofNat 92, ']', '^', '_', Char.ofNat 96, Char.ofNat 123, '|',
   Char.ofNat 125, '~']

/-- The alphabet length computation of src/passgen.c lines 197–201:
`passCharsLen` accumulates the length of every enabled class
(`LOWERS_LEN = 26`, `UPPERS_LEN = 26`, `NUMBERS_LEN = 10`,
`SYMBOLS_LEN = 32`). -/
def passCharsLen (f : Flags) : Nat :=
  (if f.lower then 26 else 0) + (if f.upper then 26 else 0) +
    (if f.number then 10 else 0) + (if f.symbol then 32 else 0)

/-- The alphabet construction of src/passgen.c lines 204–210: successive
`strcpy`s of the enabled classes, in the fixed order lower, upper, number,
symbol. -/
def buildAlphabet (f : Flags) : List Char :=
  (if f.lower then LOWERS else []) ++ (if f.upper then UPPERS else []) ++
    (if f.number then NUMBERS else []) ++ (if f.symbol then SYMBOLS else [])

/-- Outcome of the password-building loop (src/passgen.c lines 216–225):
  * `ub` — a `randInt` call hit the undefined division by zero;
  * `needDraws` — the modelled entropy list ran out mid-loop;
  * `fail e` — a `randInt` call came back with `errno = e ≠ 0`; `main`
    prints `perror("Failed to get random")` and jumps to `cleanup`,
    skipping the `puts` — no password is written to standard output;
  * `ok pw` — the loop completed and `pw` is the password `puts` emits. -/
inductive GenResult where
  | ub
  | needDraws
  | fail (e : Nat)
  | ok (pw : List Char)
deriving DecidableEq, Repr

/-- The password-building loop of `main` (src/passgen.c lines 216–225):
for each of the remaining positions, clear `errno`, call
`randInt(passCharsLen)`, abort to `cleanup` if `errno` is set, otherwise
store `passChars[r]`.  Out-of-range indexing (possible only after the
undefined `limit = 0` division, which is caught as `ub` first) is
totalised with `List.getD`.  Also returns the unconsumed entropy. -/
def genLoop (alphabet : List Char) : Nat → List Draw → GenResult × List Draw
  | 0, draws => (GenResult.ok [], draws)
  | Nat.succ n, draws =>
      match randInt alphabet.length draws with
      | none => (GenResult.needDraws, [])
      | some (RandOut.divByZero, rest) => (GenResult.ub, rest)
      | some (RandOut.out r e, rest) =>
          if e = 0 then
            match genLoop alphabet n rest with
            | (GenResult.ok pw, rest2) =>
                (GenResult.ok (alphabet.getD r ' ' :: pw), rest2)
            | other => other
          else (GenResult.fail e, rest)

/-- One message on standard error: an `Unrecognized option: <tok>` report
(lines 188–190), the `--help` text (line 176), or the
`perror("Failed to get random")` message with the failing `errno`
(line 220). -/
inductive StdErr where
  | unrecognized (tok : List Char)
  | helpText
  | randFail (e : Nat)
deriving DecidableEq, Repr

/-- Observable outcome of one run of `main`: the process exit status, the
password written to standard output (`none` when `puts` is never
reached), and the standard error messages in order. -/
structure MainResult where
  exit : Nat
  stdout : Option (List Char)
  stderr : List StdErr
deriving DecidableEq, Repr

/-- `int main(int argc, char **argv)` (src/passgen.c lines 131–235) over
the modelled argument list (`argv[1…]`) and entropy draw list: process the
arguments (possibly exiting at `--help`), build the alphabet, run the
password loop, and return the observable outcome.  `none` models a run
whose behaviour the embedding cannot assign (undefined division by zero,
or the modelled entropy list ran out).  Every path of the C `main` reaches
`return 0` (line 234). -/
def mainModel (args : List (List Char)) (entropy : List Draw) :
    Option MainResult :=
  match processArgs args with
  | ArgsResult.helpExit reports =>
      some ⟨0, none, reports.map StdErr.unrecognized ++ [StdErr.helpText]⟩
  | ArgsResult.proceed flags passLen reports =>
      match genLoop (buildAlphabet flags) passLen entropy with
      | (GenResult.ub, _) => none
      | (GenResult.needDraws, _) => none
      | (GenResult.fail e, _) =>
          some ⟨0, none, reports.map StdErr.unrecognized ++ [StdErr.randFail e]⟩
      | (GenResult.ok pw, _) =>
          some ⟨0, some pw, reports.map StdErr.unrecognized⟩

/-- The flattened `randInt` agrees with the literal two-level loop nesting
of the C function: first run the `getrandom` retry loop (`fillBuf`), then
on `errno` return `0`, otherwise test the rejection bound and either
restart or return `buf % limit`. -/
theorem randInt_eq_fillBuf (limit : Nat) (draws : List Draw) :
    randInt limit draws =
      match fillBuf draws with
      | none => none
      | some (Except.error e, rest) => some (RandOut.out 0 e, rest)
      | some (Except.ok buf, rest) =>
          if limit = 0 then some (RandOut.divByZero, rest)
          else if buf > MAX / limit * limit then randInt limit rest
          else some (RandOut.out (buf % limit) 0, rest) := by
  induction draws with
  | nil => rfl
  | cons d rest ih =>
      cases d with
      | ok v => rfl
      | short => simpa [randInt, fillBuf] using ih
      | err e =>
          by_cases he : e = 0
          · simpa [randInt, fillBuf, he] using ih
          · simp [randInt, fillBuf, he]

/-- For `2 ≤ limit` and `k < limit`, the number of accepted words with
residue `k` is `MAX / limit` for every nonzero residue, but one more for
residue `0`: line 258 keeps `buf = MAX / limit * limit` itself (the guard
is a strict `>`), and that word has residue `0`. -/
theorem residCount_eq (limit k : Nat) (h2 : 2 ≤ limit) (hk : k < limit) :
    residCount limit k = MAX / limit + (if k = 0 then 1 else 0) := by
  have hpos : 0 < limit := by omega
  have hT : MAX / limit * limit ≤ MAX := Nat.div_mul_le_self MAX limit
  have hset : (Finset.range (MAX + 1)).filter
        (fun buf => accepted limit buf ∧ buf % limit = k) =
      (Finset.range (MAX / limit * limit + 1)).filter
        (fun buf => buf % limit = k) := by
    ext x
    simp only [Finset.mem_filter, Finset.mem_range, accepted]
    constructor
    · rintro ⟨hx, hle, hmod⟩
      exact ⟨by omega, hmod⟩
    · rintro ⟨hx, hmod⟩
      exact ⟨by omega, by omega, hmod⟩
  have hstep1 : residCount limit k =
      ((Finset.range (MAX / limit * limit + 1)).filter
        (fun buf => buf % limit = k)).card := by
    unfold residCount
    rw [hset]
  have hiff : (Finset.range (MAX / limit * limit + 1)).filter
        (fun buf => buf % limit = k) =
      (Finset.range (MAX / limit * limit + 1)).filter
        (fun x => x ≡ k [MOD limit]) :=
    Finset.filter_congr (fun x _ => by
      simp [Nat.ModEq, Nat.mod_eq_of_lt hk])
  have hstep2 : ((Finset.range (MAX / limit * limit + 1)).filter
        (fun buf => buf % limit = k)).card =
      Nat.count (fun x => x ≡ k [MOD limit]) (MAX / limit * limit + 1) := by
    rw [Nat.count_eq_card_filter_range, hiff]
  have hstep3 := Nat.count_modEq_card (MAX / limit * limit + 1) hpos k
  have hq : (MAX / limit * limit + 1) / limit = MAX / limit := by
    rw [Nat.mul_comm, Nat.mul_add_div hpos,
      Nat.div_eq_of_lt (by omega : 1 < limit)]
    omega
  have hm : (MAX / limit * limit + 1) % limit = 1 := by
    rw [Nat.mul_comm, Nat.mul_add_mod]
    exact Nat.mod_eq_of_lt (by omega)
  rw [hstep1, hstep2, hstep3, hq, hm, Nat.mod_eq_of_lt hk]
  rcases Nat.eq_zero_or_pos k with hk0 | hk0
  · simp [hk0]
  · rw [if_neg (by omega), if_neg (by omega)]

/-- C1 (code bug): the claim asserts that for `2 ≤ limit ≤ MAX` every
residue is produced by the same number of accepted words.  The code is off
by one: the rejection guard `buf > MAX / limit * limit` (line 258) keeps
the word `MAX / limit * limit` itself, so residue 0 is produced by one
more accepted word than every other residue.  Evaluation at the failing
input `limit = 2`: residue 0 arises from `2^63` accepted words, residue 1
from `2^63 - 1`. -/
theorem c1_bias_eval :
    residCount 2 0 = 2 ^ 63 ∧ residCount 2 1 = 2 ^ 63 - 1 ∧
      residCount 2 0 ≠ residCount 2 1 := by
  have h0 := residCount_eq 2 0 (by norm_num) (by norm_num)
  have h1 := residCount_eq 2 1 (by norm_num) (by norm_num)
  have hdiv : MAX / 2 = 2 ^ 63 - 1 := by decide
  rw [hdiv] at h0 h1
  norm_num at h0 h1
  refine ⟨by rw [h0]; norm_num, by rw [h1]; norm_num, ?_⟩
  rw [h0, h1]
  decide

/-- C2 (confirmed): for every `limit > 0` and every modelled draw list, a
`randInt` call that returns successfully (`errno = 0`) returns a value
`r < limit`: the accepted word is reduced `% limit` on line 261, and a
hard entropy failure is the only way to return with `errno ≠ 0`. -/
theorem c2_in_range (limit : Nat) (draws : List Draw) (r : Nat)
    (rest : List Draw) (hpos : 0 < limit)
    (h : randInt limit draws = some (RandOut.out r 0, rest)) : r < limit := by
  induction draws generalizing rest with
  | nil => simp [randInt] at h
  | cons d tail ih =>
      cases d with
      | ok v =>
          simp only [randInt] at h
          rw [if_neg (by omega : ¬ limit = 0)] at h
          by_cases hrej : v % (MAX + 1) > MAX / limit * limit
          · rw [if_pos hrej] at h
            exact ih rest h
          · rw [if_neg hrej] at h
            simp only [Option.some.injEq, Prod.mk.injEq,
              RandOut.out.injEq] at h
            obtain ⟨⟨hr, -⟩, -⟩ := h
            subst hr
            exact Nat.mod_lt _ hpos
      | short =>
          simp only [randInt] at h
          exact ih rest h
      | err e =>
          simp only [randInt] at h
          by_cases he : e = 0
          · rw [if_pos he] at h
            exact ih rest h
          · rw [if_neg he] at h
            simp only [Option.some.injEq, Prod.mk.injEq,
              RandOut.out.injEq] at h
            obtain ⟨⟨-, he0⟩, -⟩ := h
            exact absurd he0 he

/-- Witness for C2 at `limit = 5` and the single full draw `7`. -/
theorem c2_in_range_witness :
    0 < 5 ∧ randInt 5 [Draw.ok 7] = some (RandOut.out 2 0, []) ∧ 2 < 5 :=
  ⟨by decide, by decide, c2_in_range 5 [Draw.ok 7] 2 [] (by decide) (by decide)⟩

/-- C3 (confirmed): on failure-free entropy the embedded `randInt` is
exactly the spec's rejection-sampling steps 1–5: same threshold
`floor(MAX / limit) * limit`, a redraw exactly when `buf > threshold`, and
`buf mod limit` otherwise. -/
theorem c3_refines_spec (limit : Nat) (hpos : 0 < limit) (words : List Nat)
    (hw : ∀ w ∈ words, w < MAX + 1) :
    Option.map Prod.fst (randInt limit (words.map Draw.ok)) =
      Option.map (fun r => RandOut.out r 0) (specRandInt limit words) := by
  induction words with
  | nil => rfl
  | cons w tail ih =>
      have hw0 : w < MAX + 1 := hw w (by simp)
      have hwt : ∀ x ∈ tail, x < MAX + 1 := fun x hx => hw x (by simp [hx])
      simp only [List.map_cons, randInt, specRandInt, specThreshold]
      rw [if_neg (by omega : ¬ limit = 0), Nat.mod_eq_of_lt hw0]
      by_cases hrej : w > MAX / limit * limit
      · rw [if_pos hrej, if_pos hrej]
        exact ih hwt
      · rw [if_neg hrej, if_neg hrej]
        rfl

/-- Witness for C3 at `limit = 5` and the single full-word draw `7`. -/
theorem c3_refines_spec_witness :
    0 < 5 ∧ (∀ w ∈ [7], w < MAX + 1) ∧
      Option.map Prod.fst (randInt 5 ([7].map Draw.ok)) =
        Option.map (fun r => RandOut.out r 0) (specRandInt 5 [7]) :=
  ⟨by decide, by decide, c3_refines_spec 5 (by decide) [7] (by decide)⟩

/-- C4 (confirmed): for `limit = 0` the computation of `randInt` reaches
the division `MAX / limit` with a zero divisor as soon as a full word is
drawn: there is no guard rejecting `limit == 0` before line 258 evaluates
`MAX / limit`, so the embedded division's error branch is reachable. -/
theorem c4_division_by_zero_reachable (v : Nat) (rest : List Draw) :
    randInt 0 (Draw.ok v :: rest) = some (RandOut.divByZero, rest) := by
  simp [randInt]

/-- Instantiation of C4 at the concrete draw `7`. -/
theorem c4_division_by_zero_reachable_witness :
    randInt 0 [Draw.ok 7] = some (RandOut.divByZero, []) :=
  c4_division_by_zero_reachable 7 []

/-- C5 (counterexample to the claim as stated): an interrupted-system-call
style failure (`getrandom` returning `-1` with `errno = EINTR = 4`) is a
retryable, transient failure, but `randInt` does not retry it: the loop
condition `!errno` exits on any nonzero `errno`, and line 250 returns `0`
with `errno` still set — the same hard-error path as any other failure —
instead of continuing on to the next draw. -/
theorem c5_transient_failure_counterexample :
    randInt 5 [Draw.err 4, Draw.ok 7] =
        some (RandOut.out 0 4, [Draw.ok 7]) ∧
      Option.map Prod.fst (randInt 5 [Draw.err 4, Draw.ok 7]) ≠
        Option.map Prod.fst (randInt 5 [Draw.ok 7]) := by
  constructor
  · decide
  · decide

/-- C5 (amended): `randInt` automatically retries exactly the draws that
fail without setting the error indicator (short reads); a draw that fails
with `errno` set — including a retryable interrupted-system-call failure —
terminates the retry loop and is treated as a hard error, returning `0`
with `errno` still set. -/
theorem c5_retry_amended (limit : Nat) (rest : List Draw) (e : Nat)
    (he : e ≠ 0) :
    randInt limit (Draw.short :: rest) = randInt limit rest ∧
      randInt limit (Draw.err e :: rest) = some (RandOut.out 0 e, rest) := by
  refine ⟨by simp [randInt], ?_⟩
  simp [randInt, he]

/-- Witness for the amended C5 at `limit = 5`, `e = EINTR = 4`. -/
theorem c5_retry_amended_witness :
    (4 : Nat) ≠ 0 ∧
      (randInt 5 [Draw.short] = randInt 5 [] ∧
        randInt 5 [Draw.err 4] = some (RandOut.out 0 4, [])) :=
  ⟨by decide, c5_retry_amended 5 [] 4 (by decide)⟩

/-- C6 (confirmed): when any of the index draws of the password loop fails
with a hard entropy error, `main` jumps to `cleanup` (line 221) past the
`puts` (line 227): the run writes no password — not even a partial one —
to standard output. -/
theorem c6_no_partial_password (args : List (List Char)) (flags : Flags)
    (passLen : Nat) (reports : List (List Char)) (entropy : List Draw)
    (res : MainResult) (e : Nat) (rest : List Draw)
    (hargs : processArgs args = ArgsResult.proceed flags passLen reports)
    (hrun : mainModel args entropy = some res)
    (hfail : genLoop (buildAlphabet flags) passLen entropy =
      (GenResult.fail e, rest)) :
    res.stdout = none := by
  cases res with
  | mk ex so se =>
      simp only [mainModel, hargs, hfail] at hrun
      simp only [Option.some.injEq, MainResult.mk.injEq] at hrun
      obtain ⟨-, h2, -⟩ := hrun
      exact h2.symm

/-- Witness for C6: default arguments, entropy failing at the very first
draw with `errno = 5`. -/
theorem c6_no_partial_password_witness :
    processArgs ([] : List (List Char)) =
        ArgsResult.proceed defaultFlags PASS_LEN_DEFAULT [] ∧
      mainModel [] [Draw.err 5] =
        some ⟨0, none, [StdErr.randFail 5]⟩ ∧
      genLoop (buildAlphabet defaultFlags) PASS_LEN_DEFAULT [Draw.err 5] =
        (GenResult.fail 5, []) ∧
      (MainResult.mk 0 none [StdErr.randFail 5]).stdout = none :=
  ⟨by decide, by decide, by decide,
    c6_no_partial_password [] defaultFlags PASS_LEN_DEFAULT [] [Draw.err 5]
      ⟨0, none, [StdErr.randFail 5]⟩ 5 [] (by decide) (by decide) (by decide)⟩

/-- C7 (code bug): the claim says a final argument that fails to parse as
an integer (such as `abc`) leaves the default length 22 in force and is
reported as an unrecognized option.  In the code, `strtol("abc", NULL, 10)`
performs no conversion, returns `0` and leaves `errno` clear, so the
`if (errno)` recovery (line 181) is skipped: the password length becomes
`0` and nothing is reported. -/
theorem c7_nonnumeric_arg_eval :
    processArgs ["abc".toList] = ArgsResult.proceed defaultFlags 0 [] ∧
      processArgs ["abc".toList] ≠
        ArgsResult.proceed defaultFlags PASS_LEN_DEFAULT ["abc".toList] := by
  constructor
  · decide
  · decide

/-- C8 (confirmed): the built alphabet is the concatenation, in the fixed
order lower, upper, number, symbol, of the enabled class strings; its
length is the sum of the enabled classes' lengths (26, 26, 10, 32); all
four disabled gives the empty sequence, lower alone the 26 lowercase
letters, and all four the 94-character concatenation. -/
theorem c8_alphabet_concat (f : Flags) :
    (buildAlphabet f).length = passCharsLen f ∧
      buildAlphabet ⟨false, false, false, false⟩ = [] ∧
      buildAlphabet ⟨true, false, false, false⟩ = LOWERS ∧
      LOWERS.length = 26 ∧
      buildAlphabet ⟨true, true, true, true⟩ =
        LOWERS ++ UPPERS ++ NUMBERS ++ SYMBOLS ∧
      (buildAlphabet ⟨true, true, true, true⟩).length = 94 := by
  refine ⟨?_, by decide, by decide, by decide, by decide, by decide⟩
  obtain ⟨l, u, n, s⟩ := f
  cases l <;> cases u <;> cases n <;> cases s <;> decide

/-- Instantiation of C8 at the default flag settings. -/
theorem c8_alphabet_concat_witness :
    (buildAlphabet defaultFlags).length = passCharsLen defaultFlags ∧
      buildAlphabet ⟨false, false, false, false⟩ = [] ∧
      buildAlphabet ⟨true, false, false, false⟩ = LOWERS ∧
      LOWERS.length = 26 ∧
      buildAlphabet ⟨true, true, true, true⟩ =
        LOWERS ++ UPPERS ++ NUMBERS ++ SYMBOLS ∧
      (buildAlphabet ⟨true, true, true, true⟩).length = 94 :=
  c8_alphabet_concat defaultFlags

/-- C9 (confirmed): every run whose behaviour the embedding can assign —
including a run aborted by a hard entropy failure — exits with status 0
(`main`'s only `return` is `return 0`, line 234); a run that writes no
password to standard output has written something to standard error (the
help text or the entropy failure report). -/
theorem c9_exit_status_zero (args : List (List Char)) (entropy : List Draw)
    (res : MainResult) (h : mainModel args entropy = some res) :
    res.exit = 0 ∧ (res.stdout = none → res.stderr ≠ []) := by
  cases res with
  | mk ex so se =>
      simp only [mainModel] at h
      cases hpa : processArgs args with
      | helpExit reports =>
          simp only [hpa] at h
          simp only [Option.some.injEq, MainResult.mk.injEq] at h
          obtain ⟨h1, h2, h3⟩ := h
          refine ⟨h1.symm, fun _ => ?_⟩
          rw [← h3]
          simp
      | proceed flags passLen reports =>
          simp only [hpa] at h
          rcases hgl : genLoop (buildAlphabet flags) passLen entropy
            with ⟨g, grest⟩
          simp only [hgl] at h
          cases g with
          | ub => simp at h
          | needDraws => simp at h
          | fail ferr =>
              simp only [Option.some.injEq, MainResult.mk.injEq] at h
              obtain ⟨h1, h2, h3⟩ := h
              refine ⟨h1.symm, fun _ => ?_⟩
              rw [← h3]
              simp
          | ok pw =>
              simp only [Option.some.injEq, MainResult.mk.injEq] at h
              obtain ⟨h1, h2, h3⟩ := h
              refine ⟨h1.symm, fun hnone => ?_⟩
              rw [← h2] at hnone
              simp at hnone

/-- Witness for C9: a run aborted by a hard entropy failure. -/
theorem c9_exit_status_zero_witness :
    mainModel [] [Draw.err 5] = some ⟨0, none, [StdErr.randFail 5]⟩ ∧
      ((MainResult.mk 0 none [StdErr.randFail 5]).exit = 0 ∧
        ((MainResult.mk 0 none [StdErr.randFail 5]).stdout = none →
          (MainResult.mk 0 none [StdErr.randFail 5]).stderr ≠ [])) :=
  ⟨by decide,
    c9_exit_status_zero [] [Draw.err 5] ⟨0, none, [StdErr.randFail 5]⟩
      (by decide)⟩

/-- C10 (confirmed): on a hard entropy failure `randInt` returns the value
`0` — in range whenever `limit > 0` — and signals the failure only through
`errno`; the same returned value `0` also arises from the legitimate draw
of the word `0`, so the return value alone cannot distinguish the two. -/
theorem c10_failure_indistinguishable (limit e : Nat) (rest : List Draw)
    (hpos : 0 < limit) (he : e ≠ 0) :
    randInt limit (Draw.err e :: rest) = some (RandOut.out 0 e, rest) ∧
      0 < limit ∧
      randInt limit [Draw.ok 0] = some (RandOut.out 0 0, []) := by
  refine ⟨by simp [randInt, he], hpos, ?_⟩
  have hne : limit ≠ 0 := by omega
  simp [randInt, hne]

/-- Witness for C10 at `limit = 3`, `errno = 4`. -/
theorem c10_failure_indistinguishable_witness :
    0 < 3 ∧ (4 : Nat) ≠ 0 ∧
      (randInt 3 [Draw.err 4] = some (RandOut.out 0 4, []) ∧ 0 < 3 ∧
        randInt 3 [Draw.ok 0] = some (RandOut.out 0 0, [])) :=
  ⟨by decide, by decide,
    c10_failure_indistinguishable 3 4 [] (by decide) (by decide)⟩
